import Mathlib

set_option autoImplicit false

/-
Verification development for the Pareidolia MIDI-triggered multi-video player.
The definitions below are a shallow embedding of the session-scheduler core of
src/pareidolia_with_no_ram.py (registry, position tracker, chord matching,
layout) and, in the P-prefixed section, of the engine-failure path of
src/pareidolia.py. Wall-clock time is modelled as a Nat parameter passed to
each operation; GStreamer playbin handles and GLib timer sources are modelled
as Nat identifiers allocated from a counter, and the observable side effects
on them are recorded as an event list returned by each operation.
-/

namespace Pareidolia

/-- Capacity constant MAX_SIMULTANEOUS_VIDEOS from the configuration section. -/
def MAX_SIMULTANEOUS_VIDEOS : Nat := 4

/-- Association-list lookup returning the first matching key, modelling Python
dict membership and access. -/
def alLookup {α β : Type} [DecidableEq α] : List (α × β) → α → Option β
  | [], _ => none
  | p :: rest, k => if p.1 = k then some p.2 else alLookup rest k

/-- Assignment d[k] = v on an insertion-ordered dict: replaces the value in
place when the key is present, otherwise appends the new entry at the end
(OrderedDict semantics). -/
def alInsert {α β : Type} [DecidableEq α] (l : List (α × β)) (k : α) (v : β) :
    List (α × β) :=
  if (alLookup l k).isSome then l.map (fun p => if p.1 = k then (k, v) else p)
  else l ++ [(k, v)]

/-- Deletion del d[k]. -/
def alErase {α β : Type} [DecidableEq α] (l : List (α × β)) (k : α) : List (α × β) :=
  l.eraseP (fun p => decide (p.1 = k))

/-- In-place mutation of the value stored under a key, a no-op when absent. -/
def alUpdate {α β : Type} [DecidableEq α] (l : List (α × β)) (k : α) (f : β → β) :
    List (α × β) :=
  l.map (fun p => if p.1 = k then (k, f p.2) else p)

/-- Observable side effects on the playback engine and on GLib timer sources. -/
inductive Event : Type where
  | timerCancelled (timerId : Nat)
  | pipelineReleased (pipelineId : Nat)
  | started (pipelineId : Nat) (offset : Nat)
deriving DecidableEq

/-- A processed clip record as it stands after the configuration-loading loop
of pareidolia_with_no_ram.py. -/
structure Clip : Type where
  name : String
  file_path : String
  required_notes : Finset Nat
  midi_channel : Int
  exclusive : Bool
  restart_on_play : Bool
  loop_duration_ms : Option Nat
deriving DecidableEq

/-- Trigger key: (file_path, channel) for chord-triggered sessions. -/
abbrev Key : Type := String × Int

/-- The ActiveVideo dataclass: one live session in the registry. -/
structure ActiveVideo : Type where
  clip : Clip
  pipeline : Nat
  loop_timer_id : Option Nat
  midi_key : Key
  start_time : Nat
deriving DecidableEq

/-- One entry of clip_playback_data: cumulative position plus the wall-clock
start of the current run, absent until the clip first starts. -/
structure PlaybackData : Type where
  position : Nat
  start_time : Option Nat
deriving DecidableEq

/-- The mutable global state of the player: the insertion-ordered registry
active_videos, the per-file position tracker clip_playback_data, and a counter
used to allocate fresh playbin and timer identifiers. -/
structure PlayerState : Type where
  active_videos : List (Key × ActiveVideo)
  clip_playback_data : List (String × PlaybackData)
  nextId : Nat
deriving DecidableEq

/-- The initial state: both registries empty. -/
def emptyState : PlayerState :=
  { active_videos := [], clip_playback_data := [], nextId := 0 }

/-- remove_video from pareidolia_with_no_ram.py: if the key is absent this is
a no-op; otherwise add the elapsed wall time to the recorded position, cancel
the loop timer if armed, set the playbin to NULL (released), and delete the
registry entry. -/
def remove_video (now : Nat) (midi_key : Key) (s : PlayerState) :
    PlayerState × List Event :=
  match alLookup s.active_videos midi_key with
  | none => (s, [])
  | some video =>
    let file_path := video.clip.file_path
    let cpd :=
      match alLookup s.clip_playback_data file_path with
      | some d =>
        match d.start_time with
        | some st =>
          alUpdate s.clip_playback_data file_path
            (fun d0 => { d0 with position := d0.position + (now - st) })
        | none => s.clip_playback_data
      | none => s.clip_playback_data
    let timer_events : List Event :=
      match video.loop_timer_id with
      | some tid => [Event.timerCancelled tid]
      | none => []
    ({ s with clip_playback_data := cpd,
              active_videos := alErase s.active_videos midi_key },
      timer_events ++ [Event.pipelineReleased video.pipeline])

/-- add_video from pareidolia_with_no_ram.py: exclusive re-trigger is ignored;
at capacity the oldest entry is evicted through remove_video; the start offset
is the recorded position unless restart_on_play, in which case the position is
reset; a playbin is created and started at that offset, a loop timer is armed
when loop_duration_ms is positive, and the session is stored in the registry.
In this variant playbin creation always succeeds. -/
def add_video (now : Nat) (clip : Clip) (midi_key : Key) (s : PlayerState) :
    PlayerState × List Event :=
  if clip.exclusive = true ∧ (alLookup s.active_videos midi_key).isSome = true then
    (s, [])
  else
    let evicted :=
      if MAX_SIMULTANEOUS_VIDEOS ≤ s.active_videos.length then
        match s.active_videos with
        | [] => (s, ([] : List Event))
        | p :: _ => remove_video now p.1 s
      else (s, ([] : List Event))
    let s1 := evicted.1
    let file_path := clip.file_path
    let start_position : Nat :=
      if clip.restart_on_play = false then
        match alLookup s1.clip_playback_data file_path with
        | some d => d.position
        | none => 0
      else 0
    let cpd1 :=
      if clip.restart_on_play = false ∧
          (alLookup s1.clip_playback_data file_path).isSome = true then
        s1.clip_playback_data
      else alUpdate s1.clip_playback_data file_path (fun d0 => { d0 with position := 0 })
    let cpd2 :=
      if (alLookup cpd1 file_path).isSome = true then cpd1
      else cpd1 ++ [(file_path, { position := 0, start_time := none })]
    let playbin := s1.nextId
    let loop_timer_id : Option Nat :=
      match clip.loop_duration_ms with
      | some d => if 0 < d then some (s1.nextId + 1) else none
      | none => none
    let video : ActiveVideo :=
      { clip := clip, pipeline := playbin, loop_timer_id := loop_timer_id,
        midi_key := midi_key, start_time := now }
    let cpd3 := alUpdate cpd2 file_path (fun d0 => { d0 with start_time := some now })
    ({ active_videos := alInsert s1.active_videos midi_key video,
       clip_playback_data := cpd3, nextId := s1.nextId + 2 },
      evicted.2 ++ [Event.started playbin start_position])

/-- on_playbin_message for an end-of-stream message, together with the
restart_clip_at_end continuation it schedules: when the session is live, the
recorded position of the file is zeroed and the session is removed and
re-added. -/
def on_playbin_eos (now : Nat) (midi_key : Key) (clip : Clip) (s : PlayerState) :
    PlayerState × List Event :=
  if (alLookup s.active_videos midi_key).isSome = true then
    let cpd0 :=
      alUpdate s.clip_playback_data clip.file_path (fun d0 => { d0 with position := 0 })
    let s1 : PlayerState := { s with clip_playback_data := cpd0 }
    if (alLookup s1.active_videos midi_key).isSome = true then
      let removed := remove_video now midi_key s1
      let added := add_video now clip midi_key removed.1
      (added.1, removed.2 ++ added.2)
    else (s1, [])
  else (s, [])

/-- One trigger-driven registry operation: a start (add_video) or a stop
(remove_video) at a given wall-clock time. -/
inductive Op : Type where
  | start (t : Nat) (clip : Clip) (k : Key)
  | stop (t : Nat) (k : Key)

/-- Apply one operation to the state, discarding the emitted events. -/
def applyOp (s : PlayerState) : Op → PlayerState
  | Op.start t clip k => (add_video t clip k s).1
  | Op.stop t k => (remove_video t k s).1

/-- Run a sequence of operations from a state. -/
def runOps (s : PlayerState) (ops : List Op) : PlayerState := ops.foldl applyOp s

/-- is_chord_active from pareidolia_with_no_ram.py: empty required notes never
trigger; a specific channel must match; otherwise the required notes must all
be held. -/
def is_chord_active (clip : Clip) (channel : Int) (active_notes : Finset Nat) : Bool :=
  if clip.required_notes = ∅ then false
  else if 0 ≤ clip.midi_channel ∧ clip.midi_channel ≠ channel then false
  else decide (clip.required_notes ⊆ active_notes)

/-- Loop body of find_active_clips: the contribution of one catalog clip for
the given channel and held-note set. -/
def clip_match (channel : Int) (active_notes : Finset Nat) (clip : Clip) :
    Option (Clip × (String × Int)) :=
  if 0 ≤ clip.midi_channel then
    if clip.midi_channel = channel ∧ is_chord_active clip channel active_notes = true then
      some (clip, (clip.file_path, channel))
    else none
  else if clip.midi_channel = -1 then
    if is_chord_active clip channel active_notes = true then
      some (clip, (clip.file_path, channel))
    else none
  else none

/-- find_active_clips from pareidolia_with_no_ram.py: all catalog clips whose
chord is satisfied on the channel, each paired with its trigger key. -/
def find_active_clips (all_clips : List Clip) (channel : Int)
    (active_notes : Finset Nat) : List (Clip × (String × Int)) :=
  all_clips.filterMap (clip_match channel active_notes)

/-- calculate_layout from pareidolia_with_no_ram.py: rectangle list
(x, y, width, height) on the fixed 1920x1080 canvas. -/
def calculate_layout (num_videos : Nat) : List (Nat × Nat × Nat × Nat) :=
  let width := 1920
  let height := 1080
  if num_videos = 1 then
    [(0, 0, width, height)]
  else if num_videos = 2 then
    let half_width := width / 2
    [(0, 0, half_width, height),
     (half_width, 0, half_width, height)]
  else if num_videos = 3 then
    let half_width := width / 2
    let half_height := height / 2
    [(0, 0, half_width, height),
     (half_width, 0, half_width, half_height),
     (half_width, half_height, half_width, half_height)]
  else if num_videos = 4 then
    let half_width := width / 2
    let half_height := height / 2
    [(0, 0, half_width, half_height),
     (half_width, 0, half_width, half_height),
     (0, half_height, half_width, half_height),
     (half_width, half_height, half_width, half_height)]
  else []

/-- The midi_channel conversion applied in the configuration-loading loop:
positive configured channels are shifted to 0-based, others left unchanged. -/
def convert_midi_channel (c : Int) : Int := if 0 < c then c - 1 else c

/-- A clip record of pareidolia.py (the variant with uridecodebin pipelines):
start_sec and optional end_sec bound the played segment. -/
structure PClip : Type where
  name : String
  file_path : String
  start_sec : Nat
  end_sec : Option Nat
  exclusive : Bool
deriving DecidableEq

/-- An ActiveVideo of pareidolia.py. -/
structure PActiveVideo : Type where
  clip : PClip
  pipeline : Nat
  loop_timer_id : Option Nat
deriving DecidableEq

/-- The registry state of pareidolia.py. -/
structure PState : Type where
  active_videos : List ((Int × Int) × PActiveVideo)
  nextId : Nat
deriving DecidableEq

/-- The initial state of the pareidolia.py registry. -/
def pEmptyState : PState := { active_videos := [], nextId := 0 }

/-- remove_video from pareidolia.py: cancel the loop timer, release the
decoder bin, delete the registry entry. -/
def P_remove_video (midi_key : Int × Int) (s : PState) : PState × List Event :=
  match alLookup s.active_videos midi_key with
  | none => (s, [])
  | some video =>
    let timer_events : List Event :=
      match video.loop_timer_id with
      | some tid => [Event.timerCancelled tid]
      | none => []
    ({ s with active_videos := alErase s.active_videos midi_key },
      timer_events ++ [Event.pipelineReleased video.pipeline])

/-- add_video from pareidolia.py. start_clip_playback can fail (the decoder
bin cannot reach PAUSED); this environment outcome is passed in as engine_ok.
The capacity eviction happens before the creation attempt; on failure the
function returns without inserting anything. On success a loop-check timer is
armed when end_sec is set, and the session is stored. -/
def P_add_video (engine_ok : Bool) (clip : PClip) (midi_key : Int × Int)
    (s : PState) : PState × List Event :=
  if clip.exclusive = true ∧ (alLookup s.active_videos midi_key).isSome = true then
    (s, [])
  else
    let evicted :=
      if MAX_SIMULTANEOUS_VIDEOS ≤ s.active_videos.length then
        match s.active_videos with
        | [] => (s, ([] : List Event))
        | p :: _ => P_remove_video p.1 s
      else (s, ([] : List Event))
    let s1 := evicted.1
    if engine_ok = false then (s1, evicted.2)
    else
      let loop_timer_id : Option Nat :=
        if (clip.end_sec).isSome = true then some (s1.nextId + 1) else none
      let video : PActiveVideo :=
        { clip := clip, pipeline := s1.nextId, loop_timer_id := loop_timer_id }
      ({ active_videos := alInsert s1.active_videos midi_key video,
         nextId := s1.nextId + 2 },
        evicted.2 ++ [Event.started s1.nextId clip.start_sec])

/-
Helper lemmas about the association-list operations.
-/

theorem alLookup_eq_none_iff {α β : Type} [DecidableEq α] (l : List (α × β)) (k : α) :
    alLookup l k = none ↔ ∀ p ∈ l, p.1 ≠ k := by
  induction l with
  | nil => simp [alLookup]
  | cons p rest ih =>
    by_cases h : p.1 = k
    · simp [alLookup, h]
    · simp [alLookup, h, ih]

theorem alLookup_isSome_iff {α β : Type} [DecidableEq α] (l : List (α × β)) (k : α) :
    (alLookup l k).isSome = true ↔ k ∈ l.map Prod.fst := by
  induction l with
  | nil => simp [alLookup]
  | cons p rest ih =>
    by_cases h : p.1 = k
    · simp [alLookup, h]
    · simp only [alLookup, if_neg h, List.map_cons, List.mem_cons, ih]
      constructor
      · exact fun hk => Or.inr hk
      · rintro (hk | hk)
        · exact absurd hk.symm h
        · exact hk

theorem alLookup_eq_none_of_not_mem_keys {α β : Type} [DecidableEq α]
    (l : List (α × β)) (k : α) (h : k ∉ l.map Prod.fst) : alLookup l k = none := by
  cases hv : alLookup l k with
  | none => rfl
  | some v => exact absurd ((alLookup_isSome_iff l k).1 (by simp [hv])) h

theorem alLookup_cons_self {α β : Type} [DecidableEq α] (p : α × β)
    (rest : List (α × β)) : alLookup (p :: rest) p.1 = some p.2 := by
  simp [alLookup]

theorem alErase_cons_self {α β : Type} [DecidableEq α] (p : α × β)
    (rest : List (α × β)) : alErase (p :: rest) p.1 = rest := by
  simp [alErase, List.eraseP_cons]

theorem alLookup_map_replace {α β : Type} [DecidableEq α] (l : List (α × β)) (k : α)
    (v : β) (h : (alLookup l k).isSome = true) :
    alLookup (l.map (fun p => if p.1 = k then (k, v) else p)) k = some v := by
  induction l with
  | nil => simp [alLookup] at h
  | cons p rest ih =>
    by_cases hp : p.1 = k
    · simp [alLookup, hp]
    · have h2 : (alLookup rest k).isSome = true := by simpa [alLookup, hp] using h
      simp [alLookup, hp, ih h2]

theorem alLookup_append_single {α β : Type} [DecidableEq α] (l : List (α × β)) (k : α)
    (v : β) (h : alLookup l k = none) : alLookup (l ++ [(k, v)]) k = some v := by
  induction l with
  | nil => simp [alLookup]
  | cons p rest ih =>
    by_cases hp : p.1 = k
    · simp [alLookup, hp] at h
    · have h2 : alLookup rest k = none := by simpa [alLookup, hp] using h
      simp [alLookup, hp, ih h2]

theorem alInsert_of_none {α β : Type} [DecidableEq α] (l : List (α × β)) (k : α)
    (v : β) (h : alLookup l k = none) : alInsert l k v = l ++ [(k, v)] := by
  unfold alInsert
  rw [h]
  simp

theorem alLookup_alInsert_self {α β : Type} [DecidableEq α] (l : List (α × β)) (k : α)
    (v : β) : alLookup (alInsert l k v) k = some v := by
  by_cases h : (alLookup l k).isSome = true
  · unfold alInsert
    rw [if_pos h]
    exact alLookup_map_replace l k v h
  · have h0 : alLookup l k = none := by
      cases hv : alLookup l k
      · rfl
      · rw [hv] at h; simp at h
    rw [alInsert_of_none l k v h0]
    exact alLookup_append_single l k v h0

theorem alLookup_alErase_self {α β : Type} [DecidableEq α] (l : List (α × β)) (k : α)
    (h : (l.map Prod.fst).Nodup) : alLookup (alErase l k) k = none := by
  induction l with
  | nil => simp [alErase, alLookup]
  | cons p rest ih =>
    rw [List.map_cons, List.nodup_cons] at h
    by_cases hp : p.1 = k
    · have he : alErase (p :: rest) k = rest := by
        simp [alErase, List.eraseP_cons, hp]
      rw [he]
      exact alLookup_eq_none_of_not_mem_keys rest k (hp ▸ h.1)
    · have he : alErase (p :: rest) k = p :: alErase rest k := by
        simp [alErase, List.eraseP_cons, hp]
      rw [he]
      simp [alLookup, hp, ih h.2]

theorem alLookup_alErase_of_none {α β : Type} [DecidableEq α] (l : List (α × β))
    (k k0 : α) (h : alLookup l k = none) : alLookup (alErase l k0) k = none := by
  rw [alLookup_eq_none_iff] at h ⊢
  intro p hp
  exact h p ((List.eraseP_sublist l).subset hp)

theorem countP_eq_zero_of_alLookup_none {α β : Type} [DecidableEq α]
    (l : List (α × β)) (k : α) (h : alLookup l k = none) :
    l.countP (fun p => decide (p.1 = k)) = 0 := by
  rw [alLookup_eq_none_iff] at h
  rw [List.countP_eq_zero]
  intro p hp
  simpa using h p hp

theorem countP_key_eq_one_of_nodup {α β : Type} [DecidableEq α]
    (l : List (α × β)) (k : α) (hnd : (l.map Prod.fst).Nodup)
    (h : (alLookup l k).isSome = true) :
    l.countP (fun p => decide (p.1 = k)) = 1 := by
  induction l with
  | nil => simp [alLookup] at h
  | cons p rest ih =>
    rw [List.map_cons, List.nodup_cons] at hnd
    by_cases hp : p.1 = k
    · rw [List.countP_cons]
      have h0 : alLookup rest k = none :=
        alLookup_eq_none_of_not_mem_keys rest k (hp ▸ hnd.1)
      rw [countP_eq_zero_of_alLookup_none rest k h0]
      simp [hp]
    · have h2 : (alLookup rest k).isSome = true := by
        simpa [alLookup, hp] using h
      rw [List.countP_cons]
      simp [hp, ih hnd.2 h2]

theorem length_alInsert_le {α β : Type} [DecidableEq α] (l : List (α × β)) (k : α)
    (v : β) : (alInsert l k v).length ≤ l.length + 1 := by
  unfold alInsert
  split
  · simp
  · simp


/-
Case equations for remove_video and add_video.
-/

theorem remove_video_none (now : Nat) (k : Key) (s : PlayerState)
    (h : alLookup s.active_videos k = none) : remove_video now k s = (s, []) := by
  unfold remove_video
  rw [h]

theorem remove_video_av (now : Nat) (k : Key) (s : PlayerState) (v : ActiveVideo)
    (h : alLookup s.active_videos k = some v) :
    ((remove_video now k s).1).active_videos = alErase s.active_videos k := by
  unfold remove_video
  rw [h]

theorem remove_video_nextId (now : Nat) (k : Key) (s : PlayerState) :
    ((remove_video now k s).1).nextId = s.nextId := by
  unfold remove_video
  cases h : alLookup s.active_videos k <;> rfl

theorem remove_video_events (now : Nat) (k : Key) (s : PlayerState) (v : ActiveVideo)
    (h : alLookup s.active_videos k = some v) :
    (remove_video now k s).2 =
      (match v.loop_timer_id with
        | some tid => [Event.timerCancelled tid]
        | none => []) ++ [Event.pipelineReleased v.pipeline] := by
  unfold remove_video
  rw [h]

theorem remove_video_length_le (now : Nat) (k : Key) (s : PlayerState) :
    ((remove_video now k s).1).active_videos.length ≤ s.active_videos.length := by
  cases h : alLookup s.active_videos k with
  | none => rw [remove_video_none now k s h]
  | some v =>
    rw [remove_video_av now k s v h]
    exact (List.eraseP_sublist s.active_videos).length_le

theorem add_video_exclusive (now : Nat) (clip : Clip) (k : Key) (s : PlayerState)
    (h : clip.exclusive = true ∧ (alLookup s.active_videos k).isSome = true) :
    add_video now clip k s = (s, []) := by
  unfold add_video
  rw [if_pos h]

theorem add_video_av_below (now : Nat) (clip : Clip) (k : Key) (s : PlayerState)
    (hex : ¬(clip.exclusive = true ∧ (alLookup s.active_videos k).isSome = true))
    (hcap : ¬MAX_SIMULTANEOUS_VIDEOS ≤ s.active_videos.length) :
    ((add_video now clip k s).1).active_videos =
      alInsert s.active_videos k
        { clip := clip, pipeline := s.nextId,
          loop_timer_id :=
            match clip.loop_duration_ms with
            | some d => if 0 < d then some (s.nextId + 1) else none
            | none => none,
          midi_key := k, start_time := now } := by
  unfold add_video
  rw [if_neg hex, if_neg hcap]

theorem add_video_av_at_cap (now : Nat) (clip : Clip) (k : Key) (s : PlayerState)
    (p : Key × ActiveVideo) (rest : List (Key × ActiveVideo))
    (hex : ¬(clip.exclusive = true ∧ (alLookup s.active_videos k).isSome = true))
    (hav : s.active_videos = p :: rest)
    (hcap : MAX_SIMULTANEOUS_VIDEOS ≤ s.active_videos.length) :
    ((add_video now clip k s).1).active_videos =
      alInsert ((remove_video now p.1 s).1).active_videos k
        { clip := clip, pipeline := ((remove_video now p.1 s).1).nextId,
          loop_timer_id :=
            match clip.loop_duration_ms with
            | some d => if 0 < d then some (((remove_video now p.1 s).1).nextId + 1)
              else none
            | none => none,
          midi_key := k, start_time := now } := by
  unfold add_video
  rw [if_neg hex, if_pos hcap, hav]

theorem add_video_events_at_cap (now : Nat) (clip : Clip) (k : Key) (s : PlayerState)
    (p : Key × ActiveVideo) (rest : List (Key × ActiveVideo))
    (hex : ¬(clip.exclusive = true ∧ (alLookup s.active_videos k).isSome = true))
    (hav : s.active_videos = p :: rest)
    (hcap : MAX_SIMULTANEOUS_VIDEOS ≤ s.active_videos.length) :
    ∃ e : Event, (add_video now clip k s).2 = (remove_video now p.1 s).2 ++ [e] := by
  refine ⟨Event.started ((remove_video now p.1 s).1).nextId
    (if clip.restart_on_play = false then
      match alLookup ((remove_video now p.1 s).1).clip_playback_data clip.file_path with
      | some d => d.position
      | none => 0
    else 0), ?_⟩
  unfold add_video
  rw [if_neg hex, if_pos hcap, hav]


/-
Length invariant of the registry.
-/

theorem add_video_length_le (now : Nat) (clip : Clip) (k : Key) (s : PlayerState)
    (h : s.active_videos.length ≤ MAX_SIMULTANEOUS_VIDEOS) :
    ((add_video now clip k s).1).active_videos.length ≤ MAX_SIMULTANEOUS_VIDEOS := by
  by_cases hex : clip.exclusive = true ∧ (alLookup s.active_videos k).isSome = true
  · rw [add_video_exclusive now clip k s hex]
    exact h
  · by_cases hcap : MAX_SIMULTANEOUS_VIDEOS ≤ s.active_videos.length
    · cases hav : s.active_videos with
      | nil =>
        rw [hav] at hcap
        simp [MAX_SIMULTANEOUS_VIDEOS] at hcap
      | cons p rest =>
        rw [add_video_av_at_cap now clip k s p rest hex hav hcap]
        refine le_trans (length_alInsert_le _ _ _) ?_
        have h1 : ((remove_video now p.1 s).1).active_videos = rest := by
          rw [remove_video_av now p.1 s p.2 (by rw [hav]; exact alLookup_cons_self p rest)]
          rw [hav]
          exact alErase_cons_self p rest
        rw [h1]
        have h2 : s.active_videos.length = rest.length + 1 := by
          rw [hav]
          simp
        rw [h2] at h
        omega
    · rw [add_video_av_below now clip k s hex hcap]
      refine le_trans (length_alInsert_le _ _ _) ?_
      omega

theorem applyOp_length_le (s : PlayerState) (op : Op)
    (h : s.active_videos.length ≤ MAX_SIMULTANEOUS_VIDEOS) :
    (applyOp s op).active_videos.length ≤ MAX_SIMULTANEOUS_VIDEOS := by
  cases op with
  | start t clip k => exact add_video_length_le t clip k s h
  | stop t k => exact le_trans (remove_video_length_le t k s) h

theorem runOps_length_le (ops : List Op) : ∀ s : PlayerState,
    s.active_videos.length ≤ MAX_SIMULTANEOUS_VIDEOS →
    (runOps s ops).active_videos.length ≤ MAX_SIMULTANEOUS_VIDEOS := by
  induction ops with
  | nil => exact fun s h => h
  | cons op rest ih =>
    intro s h
    rw [runOps, List.foldl_cons]
    exact ih (applyOp s op) (applyOp_length_le s op h)


theorem add_video_av_insert (now : Nat) (clip : Clip) (k : Key) (s : PlayerState)
    (hex : ¬(clip.exclusive = true ∧ (alLookup s.active_videos k).isSome = true)) :
    ∃ (l : List (Key × ActiveVideo)) (v : ActiveVideo),
      v.clip = clip ∧
      ((add_video now clip k s).1).active_videos = alInsert l k v ∧
      (alLookup s.active_videos k = none → alLookup l k = none) := by
  by_cases hcap : MAX_SIMULTANEOUS_VIDEOS ≤ s.active_videos.length
  · cases hav : s.active_videos with
    | nil =>
      rw [hav] at hcap
      simp [MAX_SIMULTANEOUS_VIDEOS] at hcap
    | cons p rest =>
      refine ⟨((remove_video now p.1 s).1).active_videos, _, rfl,
        add_video_av_at_cap now clip k s p rest hex hav hcap, ?_⟩
      intro hk
      rw [← hav] at hk
      rw [remove_video_av now p.1 s p.2 (by rw [hav]; exact alLookup_cons_self p rest)]
      exact alLookup_alErase_of_none s.active_videos k p.1 hk
  · exact ⟨s.active_videos, _, rfl, add_video_av_below now clip k s hex hcap,
      fun hk => hk⟩

/-
Concrete clip and state fixtures used by the claim theorems.
-/

/-- A clip resuming from the recorded position (restart_on_play false). -/
def clipX : Clip :=
  { name := "x", file_path := "file:///x.mp4", required_notes := {60},
    midi_channel := 0, exclusive := false, restart_on_play := false,
    loop_duration_ms := none }

/-- Trigger key of clipX on channel 0. -/
def kX : Key := ("file:///x.mp4", 0)

/-- State holding only clipX, started at time 0 from position 0. -/
def sX : PlayerState := (add_video 0 clipX kX emptyState).1

/-- A non-exclusive clip with a loop timer armed (loop_duration_ms 100). -/
def clipL : Clip :=
  { name := "l", file_path := "file:///l.mp4", required_notes := {61},
    midi_channel := 0, exclusive := false, restart_on_play := false,
    loop_duration_ms := some 100 }

/-- Trigger key of clipL on channel 0. -/
def kL : Key := ("file:///l.mp4", 0)

/-- State holding only clipL, started at time 0. -/
def sL : PlayerState := (add_video 0 clipL kL emptyState).1

/-- A clip requiring the chord 60, 64, 67 on channel 0. -/
def chordClip : Clip :=
  { name := "chord", file_path := "file:///chord.mp4",
    required_notes := {60, 64, 67}, midi_channel := 0, exclusive := false,
    restart_on_play := false, loop_duration_ms := none }

/-- Four plain clips for the eviction scenarios. -/
def clipA : Clip :=
  { name := "a", file_path := "file:///a.mp4", required_notes := ∅,
    midi_channel := 0, exclusive := false, restart_on_play := false,
    loop_duration_ms := none }

def clipB : Clip :=
  { name := "b", file_path := "file:///b.mp4", required_notes := ∅,
    midi_channel := 0, exclusive := false, restart_on_play := false,
    loop_duration_ms := none }

def clipC : Clip :=
  { name := "c", file_path := "file:///c.mp4", required_notes := ∅,
    midi_channel := 0, exclusive := false, restart_on_play := false,
    loop_duration_ms := none }

def clipD : Clip :=
  { name := "d", file_path := "file:///d.mp4", required_notes := ∅,
    midi_channel := 0, exclusive := false, restart_on_play := false,
    loop_duration_ms := none }

def clipE : Clip :=
  { name := "e", file_path := "file:///e.mp4", required_notes := ∅,
    midi_channel := 0, exclusive := false, restart_on_play := false,
    loop_duration_ms := none }

def kA : Key := ("file:///a.mp4", 0)
def kB : Key := ("file:///b.mp4", 0)
def kC : Key := ("file:///c.mp4", 0)
def kD : Key := ("file:///d.mp4", 0)
def kE : Key := ("file:///e.mp4", 0)

/-- Sessions A, B, C inserted in that order. -/
def sABC : PlayerState :=
  (add_video 2 clipC kC (add_video 1 clipB kB (add_video 0 clipA kA emptyState).1).1).1

/-- Sessions A, B, C, D inserted in that order (registry at capacity 4). -/
def sABCD : PlayerState := (add_video 3 clipD kD sABC).1

/-- Clip fixtures for the pareidolia.py variant. -/
def pClip1 : PClip :=
  { name := "p1", file_path := "file:///p1.mp4", start_sec := 0, end_sec := none,
    exclusive := false }

def pClip2 : PClip :=
  { name := "p2", file_path := "file:///p2.mp4", start_sec := 0, end_sec := none,
    exclusive := false }

def pClip3 : PClip :=
  { name := "p3", file_path := "file:///p3.mp4", start_sec := 0, end_sec := none,
    exclusive := false }

def pClip4 : PClip :=
  { name := "p4", file_path := "file:///p4.mp4", start_sec := 0, end_sec := none,
    exclusive := false }

def pClip5 : PClip :=
  { name := "p5", file_path := "file:///p5.mp4", start_sec := 3, end_sec := none,
    exclusive := false }

/-- pareidolia.py registry holding four sessions keyed (0,1) .. (0,4). -/
def pS4 : PState :=
  (P_add_video true pClip4 (0, 4)
    (P_add_video true pClip3 (0, 3)
      (P_add_video true pClip2 (0, 2)
        (P_add_video true pClip1 (0, 1) pEmptyState).1).1).1).1

/-- pareidolia.py registry holding one session keyed (0,1). -/
def pS1 : PState := (P_add_video true pClip1 (0, 1) pEmptyState).1

/-
C1. For every sequence of start and stop operations from the empty registry,
the registry never exceeds MAX_SIMULTANEOUS_VIDEOS entries.
-/

/-- C1: for every sequence of add_video and remove_video operations starting
from the empty registry, the number of entries in active_videos is at most
MAX_SIMULTANEOUS_VIDEOS after each operation completes (every prefix of a
sequence is itself a sequence, so this bounds the size after every step). -/
theorem registry_size_bounded (ops : List Op) :
    ((runOps emptyState ops).active_videos).length ≤ MAX_SIMULTANEOUS_VIDEOS :=
  runOps_length_le ops emptyState (by simp [emptyState, MAX_SIMULTANEOUS_VIDEOS])

/-
C9. The layout function.
-/

/-- C9: calculate_layout is a pure function on the fixed 1920x1080 canvas; it
returns the full frame for 1, side-by-side halves for 2, a full-height left
half plus two stacked right quarters for 3, a 2x2 grid of quarters for 4, and
the empty list for 0 and for every count beyond the enumerated cases. -/
theorem calculate_layout_spec :
    calculate_layout 0 = [] ∧
    calculate_layout 1 = [(0, 0, 1920, 1080)] ∧
    calculate_layout 2 = [(0, 0, 960, 1080), (960, 0, 960, 1080)] ∧
    calculate_layout 3 =
      [(0, 0, 960, 1080), (960, 0, 960, 540), (960, 540, 960, 540)] ∧
    calculate_layout 4 =
      [(0, 0, 960, 540), (960, 0, 960, 540), (0, 540, 960, 540),
        (960, 540, 960, 540)] ∧
    (∀ n : Nat, calculate_layout (n + 5) = []) := by
  refine ⟨rfl, rfl, rfl, rfl, rfl, ?_⟩
  intro n
  unfold calculate_layout
  rw [if_neg (by omega), if_neg (by omega), if_neg (by omega), if_neg (by omega)]

/-
C10. The midi_channel conversion of the configuration-loading loop.
-/

/-- C10: the loading loop replaces a configured midi_channel c by c - 1 when
c is positive and leaves it unchanged otherwise, so configured channels 0 and
1 both map to internal channel 0, and two clips configured with channels 0
and 1 are matched against exactly the same incoming MIDI channel. -/
theorem midi_channel_conversion_spec :
    (∀ n : Nat, convert_midi_channel ((n : Int) + 1) = (n : Int)) ∧
    (∀ n : Nat, convert_midi_channel (-(n : Int)) = -(n : Int)) ∧
    convert_midi_channel 0 = 0 ∧
    convert_midi_channel 1 = 0 ∧
    (∀ (clip : Clip) (ch : Int) (notes : Finset Nat),
      is_chord_active { clip with midi_channel := convert_midi_channel 0 } ch notes =
        is_chord_active { clip with midi_channel := convert_midi_channel 1 } ch notes) := by
  refine ⟨?_, ?_, rfl, rfl, ?_⟩
  · intro n
    unfold convert_midi_channel
    rw [if_pos (by positivity)]
    omega
  · intro n
    unfold convert_midi_channel
    rw [if_neg (by omega)]
  · intro clip ch notes
    rfl


/-
C3. FIFO eviction.
-/

/-- C3 counterexample: the capacity of the code is MAX_SIMULTANEOUS_VIDEOS = 4,
so with sessions A, B, C inserted in that order the registry is not yet at
capacity and a fourth admission evicts nothing: A is still present afterwards
and the registry holds four sessions. This refutes the claimed instance in
which a fourth admission at three held sessions evicts A. -/
theorem fifo_capacity3_counterexample :
    sABC.active_videos.length = 3 ∧
    ((add_video 3 clipD kD sABC).1).active_videos.length = 4 ∧
    (alLookup ((add_video 3 clipD kD sABC).1).active_videos kA).isSome = true := by
  decide

/-- C3 amended: whenever a start goes through under a fresh key while the
registry already holds MAX_SIMULTANEOUS_VIDEOS = 4 sessions, exactly the
oldest-inserted session (the head of the registry) is evicted and the
remaining sessions are preserved in order, followed by the new session at the
end. -/
theorem fifo_eviction_at_capacity (now : Nat) (clip : Clip) (k : Key)
    (s : PlayerState)
    (hlen : s.active_videos.length = MAX_SIMULTANEOUS_VIDEOS)
    (hk : alLookup s.active_videos k = none) :
    ∃ v : ActiveVideo, v.clip = clip ∧ v.midi_key = k ∧
      ((add_video now clip k s).1).active_videos =
        s.active_videos.tail ++ [(k, v)] := by
  have hex : ¬(clip.exclusive = true ∧ (alLookup s.active_videos k).isSome = true) := by
    simp [hk]
  have hcap : MAX_SIMULTANEOUS_VIDEOS ≤ s.active_videos.length := le_of_eq hlen.symm
  cases hav : s.active_videos with
  | nil =>
    rw [hav] at hlen
    simp [MAX_SIMULTANEOUS_VIDEOS] at hlen
  | cons p rest =>
    refine ⟨⟨clip, ((remove_video now p.1 s).1).nextId,
      (match clip.loop_duration_ms with
        | some d => if 0 < d then some (((remove_video now p.1 s).1).nextId + 1)
          else none
        | none => none),
      k, now⟩, rfl, rfl, ?_⟩
    rw [add_video_av_at_cap now clip k s p rest hex hav hcap]
    have h1 : ((remove_video now p.1 s).1).active_videos = rest := by
      rw [remove_video_av now p.1 s p.2 (by rw [hav]; exact alLookup_cons_self p rest)]
      rw [hav]
      exact alErase_cons_self p rest
    rw [h1]
    have hkrest : alLookup rest k = none := by
      rw [hav] at hk
      by_cases hpk : p.1 = k
      · simp [alLookup, hpk] at hk
      · simpa [alLookup, hpk] using hk
    rw [alInsert_of_none rest k _ hkrest]
    rfl

/-- C3 amended witness: with sessions A, B, C, D inserted in that order at the
actual capacity 4, a fifth admission evicts exactly A while B, C, D remain in
order and E is appended. -/
theorem fifo_eviction_at_capacity_witness :
    sABCD.active_videos.length = MAX_SIMULTANEOUS_VIDEOS ∧
    alLookup sABCD.active_videos kE = none ∧
    ∃ v : ActiveVideo, v.clip = clipE ∧ v.midi_key = kE ∧
      ((add_video 4 clipE kE sABCD).1).active_videos =
        sABCD.active_videos.tail ++ [(kE, v)] :=
  ⟨by decide, by decide,
    fifo_eviction_at_capacity 4 clipE kE sABCD (by decide) (by decide)⟩

/-
C7. Resource release on removal or replacement.
-/

/-- The session stored for clipL in sL: playbin 0, loop timer 1. -/
def vL : ActiveVideo :=
  { clip := clipL, pipeline := 0, loop_timer_id := some 1, midi_key := kL,
    start_time := 0 }

/-- The session stored for clipA at the head of sABCD: playbin 0, no timer. -/
def vA : ActiveVideo :=
  { clip := clipA, pipeline := 0, loop_timer_id := none, midi_key := kA,
    start_time := 0 }

/-- C7 counterexample: a non-exclusive start under an already-present trigger
key replaces the stored session (playbin 0 with armed timer 1 becomes playbin
2 with timer 3) without cancelling the old timer or releasing the old playbin:
the only event emitted is the start of the new playbin. -/
theorem silent_drop_counterexample :
    (alLookup sL.active_videos kL).map (fun v => (v.pipeline, v.loop_timer_id)) =
      some (0, some 1) ∧
    (alLookup ((add_video 5 clipL kL sL).1).active_videos kL).map
      (fun v => (v.pipeline, v.loop_timer_id)) = some (2, some 3) ∧
    (add_video 5 clipL kL sL).2 = [Event.started 2 0] ∧
    ((add_video 5 clipL kL sL).1).active_videos.length = 1 := by
  decide

/-- C7 amended: every removal of a session from the registry goes through
remove_video, which cancels the loop timer when armed and releases the
engine pipeline handle; the eviction step inside add_video goes through the
same path, so the evicted oldest session is also released. (A non-exclusive
start under an already-present key, however, replaces the stored session
without releasing it; the chord scheduler never exercises that path because
it only starts clips whose keys are absent.) -/
theorem removal_releases_resources :
    (∀ (now : Nat) (k : Key) (s : PlayerState) (v : ActiveVideo),
        alLookup s.active_videos k = some v →
        Event.pipelineReleased v.pipeline ∈ (remove_video now k s).2 ∧
        ∀ tid : Nat, v.loop_timer_id = some tid →
          Event.timerCancelled tid ∈ (remove_video now k s).2) ∧
    (∀ (now : Nat) (clip : Clip) (k : Key) (s : PlayerState)
        (p : Key × ActiveVideo) (rest : List (Key × ActiveVideo)),
        s.active_videos = p :: rest →
        MAX_SIMULTANEOUS_VIDEOS ≤ s.active_videos.length →
        ¬(clip.exclusive = true ∧ (alLookup s.active_videos k).isSome = true) →
        Event.pipelineReleased p.2.pipeline ∈ (add_video now clip k s).2) := by
  constructor
  · intro now k s v h
    rw [remove_video_events now k s v h]
    constructor
    · exact List.mem_append_right _ (List.mem_singleton_self _)
    · intro tid htid
      rw [htid]
      exact List.mem_append_left _ (List.mem_singleton_self _)
  · intro now clip k s p rest hav hcap hex
    obtain ⟨e, he⟩ := add_video_events_at_cap now clip k s p rest hex hav hcap
    rw [he]
    refine List.mem_append_left _ ?_
    have hp : alLookup s.active_videos p.1 = some p.2 := by
      rw [hav]
      exact alLookup_cons_self p rest
    rw [remove_video_events now p.1 s p.2 hp]
    exact List.mem_append_right _ (List.mem_singleton_self _)

/-- C7 amended witness: stopping the looping session of sL cancels its timer 1
and releases its playbin 0, and the eviction performed by a fifth admission
into the full registry sABCD releases the playbin of the oldest session A. -/
theorem removal_releases_resources_witness :
    alLookup sL.active_videos kL = some vL ∧
    Event.pipelineReleased 0 ∈ (remove_video 5 kL sL).2 ∧
    Event.timerCancelled 1 ∈ (remove_video 5 kL sL).2 ∧
    sABCD.active_videos = (kA, vA) :: sABCD.active_videos.tail ∧
    Event.pipelineReleased 0 ∈ (add_video 4 clipE kE sABCD).2 :=
  ⟨by decide,
    (removal_releases_resources.1 5 kL sL vL (by decide)).1,
    (removal_releases_resources.1 5 kL sL vL (by decide)).2 1 rfl,
    by decide,
    removal_releases_resources.2 4 clipE kE sABCD (kA, vA)
      sABCD.active_videos.tail (by decide) (by decide) (by decide)⟩

/-
C6. Natural-end looping.
-/

/-- C6 evaluation at the failing input: clipX has no end bound and no loop
period and restart_on_play false; it is started at time 0 from position 0
(first event), and the end-of-stream callback arrives at time 10. The EOS
handler zeroes the recorded position, but the scheduled restart goes through
remove_video, which adds the elapsed 10 seconds back onto the zeroed
position before add_video resumes: the restarted playback is started at
offset 10, not at the start offset 0, and the recorded position afterwards is
10, not 0. -/
theorem eos_restart_offset_evaluation :
    (add_video 0 clipX kX emptyState).2 = [Event.started 0 0] ∧
    (on_playbin_eos 10 kX clipX sX).2 =
      [Event.pipelineReleased 0, Event.started 2 10] ∧
    alLookup ((on_playbin_eos 10 kX clipX sX).1).clip_playback_data
      clipX.file_path = some { position := 10, start_time := some 10 } := by
  decide


/-
C2. Engine-failure handling in pareidolia.py.
-/

theorem P_remove_video_av (k : Int × Int) (s : PState) (v : PActiveVideo)
    (h : alLookup s.active_videos k = some v) :
    ((P_remove_video k s).1).active_videos = alErase s.active_videos k := by
  unfold P_remove_video
  rw [h]

theorem P_add_video_fail (clip : PClip) (k : Int × Int) (s : PState)
    (hex : ¬(clip.exclusive = true ∧ (alLookup s.active_videos k).isSome = true)) :
    P_add_video false clip k s =
      (if MAX_SIMULTANEOUS_VIDEOS ≤ s.active_videos.length then
        match s.active_videos with
        | [] => (s, ([] : List Event))
        | p :: _ => P_remove_video p.1 s
      else (s, ([] : List Event))) := by
  unfold P_add_video
  rw [if_neg hex]
  rfl

/-- C2 counterexample: with the pareidolia.py registry at capacity (four
sessions), a start whose decoder-bin creation fails still evicts the oldest
session before the creation attempt: afterwards the registry has three
sessions, the previously present session keyed (0, 1) is gone, and nothing
was inserted for the new key. This refutes the part of the claim saying no
existing session is removed by the failed attempt. -/
theorem engine_failure_counterexample :
    pS4.active_videos.length = 4 ∧
    (alLookup pS4.active_videos (0, 1)).isSome = true ∧
    ((P_add_video false pClip5 (0, 5) pS4).1).active_videos.length = 3 ∧
    alLookup ((P_add_video false pClip5 (0, 5) pS4).1).active_videos (0, 1) = none ∧
    alLookup ((P_add_video false pClip5 (0, 5) pS4).1).active_videos (0, 5) = none := by
  decide

/-- C2 amended: when handle creation fails, the start attempt is abandoned
with no half-created session inserted (the new key is never present afterwards),
and if the registry was below capacity it is left entirely unaffected; when
it was at capacity, the oldest session has already been evicted before the
creation attempt and that eviction is not rolled back. -/
theorem engine_failure_aborts_start (clip : PClip) (k : Int × Int) (s : PState) :
    (s.active_videos.length < MAX_SIMULTANEOUS_VIDEOS →
      P_add_video false clip k s = (s, [])) ∧
    (alLookup s.active_videos k = none →
      alLookup ((P_add_video false clip k s).1).active_videos k = none) := by
  constructor
  · intro hlen
    by_cases hex : clip.exclusive = true ∧ (alLookup s.active_videos k).isSome = true
    · unfold P_add_video
      rw [if_pos hex]
    · rw [P_add_video_fail clip k s hex, if_neg (not_le.mpr hlen)]
  · intro hk
    have hex : ¬(clip.exclusive = true ∧ (alLookup s.active_videos k).isSome = true) := by
      simp [hk]
    rw [P_add_video_fail clip k s hex]
    by_cases hcap : MAX_SIMULTANEOUS_VIDEOS ≤ s.active_videos.length
    · rw [if_pos hcap]
      cases hav : s.active_videos with
      | nil => exact hk
      | cons p rest =>
        have hp : alLookup s.active_videos p.1 = some p.2 := by
          rw [hav]
          exact alLookup_cons_self p rest
        show alLookup ((P_remove_video p.1 s).1).active_videos k = none
        rw [P_remove_video_av p.1 s p.2 hp]
        exact alLookup_alErase_of_none s.active_videos k p.1 hk
    · rw [if_neg hcap]
      exact hk

/-- C2 amended witness: a failing start against the one-session registry pS1
leaves the state exactly unchanged and emits no event. -/
theorem engine_failure_aborts_start_witness :
    pS1.active_videos.length < MAX_SIMULTANEOUS_VIDEOS ∧
    P_add_video false pClip5 (0, 5) pS1 = (pS1, []) :=
  ⟨by decide, (engine_failure_aborts_start pClip5 (0, 5) pS1).1 (by decide)⟩

/-
C8. Idempotent no-ops.
-/

/-- An exclusive clip for the double-start scenario. -/
def clipExcl : Clip :=
  { name := "f", file_path := "file:///f.mp4", required_notes := ∅,
    midi_channel := 0, exclusive := true, restart_on_play := false,
    loop_duration_ms := none }

def kF : Key := ("file:///f.mp4", 0)

/-- C8: remove_video on an absent key leaves the state exactly unchanged and
emits nothing, so a stop immediately repeated after a stop of the same key is
a no-op on the second call; and a second consecutive add_video of an
exclusive clip under the same key is a no-op, leaving exactly one session
stored for that key. -/
theorem idempotent_noops :
    (∀ (t : Nat) (k : Key) (s : PlayerState),
        alLookup s.active_videos k = none → remove_video t k s = (s, [])) ∧
    (∀ (t1 t2 : Nat) (k : Key) (s : PlayerState),
        (s.active_videos.map Prod.fst).Nodup →
        remove_video t2 k (remove_video t1 k s).1 = ((remove_video t1 k s).1, [])) ∧
    (∀ (t1 t2 : Nat) (clip : Clip) (k : Key) (s : PlayerState),
        clip.exclusive = true → (s.active_videos.map Prod.fst).Nodup →
        add_video t2 clip k (add_video t1 clip k s).1 =
          ((add_video t1 clip k s).1, []) ∧
        ((add_video t1 clip k s).1).active_videos.countP
          (fun p => decide (p.1 = k)) = 1) := by
  refine ⟨?_, ?_, ?_⟩
  · exact fun t k s h => remove_video_none t k s h
  · intro t1 t2 k s hnd
    cases h : alLookup s.active_videos k with
    | none =>
      rw [remove_video_none t1 k s h]
      exact remove_video_none t2 k s h
    | some v =>
      refine remove_video_none t2 k _ ?_
      rw [remove_video_av t1 k s v h]
      exact alLookup_alErase_self s.active_videos k hnd
  · intro t1 t2 clip k s hexc hnd
    cases h : alLookup s.active_videos k with
    | some v =>
      have hex : clip.exclusive = true ∧ (alLookup s.active_videos k).isSome = true :=
        ⟨hexc, by rw [h]; rfl⟩
      rw [add_video_exclusive t1 clip k s hex]
      refine ⟨add_video_exclusive t2 clip k s hex, ?_⟩
      exact countP_key_eq_one_of_nodup s.active_videos k hnd hex.2
    | none =>
      have hex1 : ¬(clip.exclusive = true ∧ (alLookup s.active_videos k).isSome = true) := by
        simp [h]
      obtain ⟨l, v, hvclip, hins, hnone⟩ := add_video_av_insert t1 clip k s hex1
      have hlk : alLookup ((add_video t1 clip k s).1).active_videos k = some v := by
        rw [hins]
        exact alLookup_alInsert_self l k v
      refine ⟨add_video_exclusive t2 clip k _ ⟨hexc, by rw [hlk]; rfl⟩, ?_⟩
      rw [hins, alInsert_of_none l k v (hnone h), List.countP_append]
      rw [countP_eq_zero_of_alLookup_none l k (hnone h)]
      simp

/-- C8 witness: a stop of the never-started key A on the empty registry is a
no-op; a second stop of clipX is a no-op after the first; and a double start
of the exclusive clip clipExcl yields exactly one stored session with the
second call changing nothing. -/
theorem idempotent_noops_witness :
    (alLookup emptyState.active_videos kA = none ∧
      remove_video 0 kA emptyState = (emptyState, [])) ∧
    ((sX.active_videos.map Prod.fst).Nodup ∧
      remove_video 7 kX (remove_video 5 kX sX).1 = ((remove_video 5 kX sX).1, [])) ∧
    (clipExcl.exclusive = true ∧
      add_video 3 clipExcl kF (add_video 1 clipExcl kF emptyState).1 =
        ((add_video 1 clipExcl kF emptyState).1, []) ∧
      ((add_video 1 clipExcl kF emptyState).1).active_videos.countP
        (fun p => decide (p.1 = kF)) = 1) :=
  ⟨⟨by decide, idempotent_noops.1 0 kA emptyState (by decide)⟩,
    ⟨by decide, idempotent_noops.2.1 5 7 kX sX (by decide)⟩,
    by
      have h := idempotent_noops.2.2 1 3 clipExcl kF emptyState rfl (by decide)
      exact ⟨rfl, h.1, h.2⟩⟩


/-
C5. Position round-trip.
-/

/-- C5: for any clip with restart_on_play false, starting it fresh (elapsed
position 0) at time t0, stopping it at time t0 + 5, and starting it again at
any time t2 makes the new playbin start at offset 5, the recorded cumulative
elapsed time, not at 0. -/
theorem position_roundtrip (clip : Clip) (k : Key) (t0 t2 : Nat)
    (h : clip.restart_on_play = false) :
    ∃ pid : Nat,
      (add_video t2 clip k
        ((remove_video (t0 + 5) k ((add_video t0 clip k emptyState).1)).1)).2 =
        [Event.started pid 5] := by
  have h1 : (add_video t0 clip k emptyState).1 =
      { active_videos := [(k,
          { clip := clip, pipeline := 0,
            loop_timer_id :=
              (match clip.loop_duration_ms with
                | some d => if 0 < d then some 1 else none
                | none => none),
            midi_key := k, start_time := t0 })],
        clip_playback_data :=
          [(clip.file_path, { position := 0, start_time := some t0 })],
        nextId := 2 } := by
    simp [add_video, emptyState, alLookup, alInsert, alUpdate,
      MAX_SIMULTANEOUS_VIDEOS]
  have h2 : (remove_video (t0 + 5) k ((add_video t0 clip k emptyState).1)).1 =
      { active_videos := [],
        clip_playback_data :=
          [(clip.file_path, { position := 5, start_time := some t0 })],
        nextId := 2 } := by
    rw [h1]
    simp [remove_video, alLookup, alUpdate, alErase, List.eraseP_cons]
  refine ⟨2, ?_⟩
  rw [h2]
  simp [add_video, alLookup, MAX_SIMULTANEOUS_VIDEOS, h]

/-- C5 witness: the concrete clipX round-trip, started at 0, stopped at 5,
restarted at time 9, resumes at offset 5. -/
theorem position_roundtrip_witness :
    clipX.restart_on_play = false ∧
    ∃ pid : Nat,
      (add_video 9 clipX kX
        ((remove_video (0 + 5) kX ((add_video 0 clipX kX emptyState).1)).1)).2 =
        [Event.started pid 5] :=
  ⟨rfl, position_roundtrip clipX kX 0 9 rfl⟩

/-
C4. Trigger matching.
-/

theorem is_chord_active_iff (clip : Clip) (channel : Int) (notes : Finset Nat) :
    is_chord_active clip channel notes = true ↔
      clip.required_notes ≠ ∅ ∧
      ¬(0 ≤ clip.midi_channel ∧ clip.midi_channel ≠ channel) ∧
      clip.required_notes ⊆ notes := by
  unfold is_chord_active
  split_ifs with h1 h2
  · simp [h1]
  · simp [h1, h2]
  · simp [h1, h2]

theorem clip_match_eq_some_iff (ch : Nat) (notes : Finset Nat) (a clip : Clip)
    (key : String × Int) :
    clip_match (ch : Int) notes a = some (clip, key) ↔
      clip = a ∧ key = (a.file_path, (ch : Int)) ∧
      (a.midi_channel = -1 ∨ a.midi_channel = (ch : Int)) ∧
      a.required_notes ≠ ∅ ∧ a.required_notes ⊆ notes := by
  have hch : (0 : Int) ≤ (ch : Int) := Int.natCast_nonneg ch
  unfold clip_match
  by_cases h1 : (0 : Int) ≤ a.midi_channel
  · rw [if_pos h1]
    by_cases h2 : a.midi_channel = (ch : Int) ∧
        is_chord_active a (ch : Int) notes = true
    · rw [if_pos h2]
      obtain ⟨hmc, hact⟩ := h2
      rw [is_chord_active_iff] at hact
      simp only [Option.some.injEq, Prod.mk.injEq]
      constructor
      · rintro ⟨h5, h6⟩
        exact ⟨h5.symm, h6.symm, Or.inr hmc, hact.1, hact.2.2⟩
      · rintro ⟨h5, h6, h7, h8, h9⟩
        exact ⟨h5.symm, h6.symm⟩
    · rw [if_neg h2]
      constructor
      · intro heq
        exact absurd heq (by simp)
      · rintro ⟨h5, h6, hor, hne, hsub⟩
        rcases hor with hor | hor
        · rw [hor] at h1
          exact absurd h1 (by decide)
        · refine absurd ⟨hor, ?_⟩ h2
          rw [is_chord_active_iff]
          refine ⟨hne, ?_, hsub⟩
          rintro ⟨h7, hneq⟩
          exact hneq hor
  · rw [if_neg h1]
    by_cases h3 : a.midi_channel = -1
    · rw [if_pos h3]
      by_cases h4 : is_chord_active a (ch : Int) notes = true
      · rw [if_pos h4]
        rw [is_chord_active_iff] at h4
        simp only [Option.some.injEq, Prod.mk.injEq]
        constructor
        · rintro ⟨h5, h6⟩
          exact ⟨h5.symm, h6.symm, Or.inl h3, h4.1, h4.2.2⟩
        · rintro ⟨h5, h6, h7, h8, h9⟩
          exact ⟨h5.symm, h6.symm⟩
      · rw [if_neg h4]
        constructor
        · intro heq
          exact absurd heq (by simp)
        · rintro ⟨h5, h6, h7, hne, hsub⟩
          apply absurd ?_ h4
          rw [is_chord_active_iff]
          exact ⟨hne, fun hc => h1 hc.1, hsub⟩
    · rw [if_neg h3]
      constructor
      · intro heq
        exact absurd heq (by simp)
      · rintro ⟨h5, h6, hor, hne, hsub⟩
        rcases hor with hor | hor
        · exact absurd hor h3
        · rw [hor] at h1
          exact absurd hch h1

/-- C4: for every channel (MIDI channels are nonnegative) and held-note set,
find_active_clips returns exactly those catalog clips, each paired with the
trigger key (file_path, channel), whose midi_channel is the wildcard -1 or
equals the channel, whose required_notes set is non-empty, and whose
required_notes is a subset of the held notes; and in particular chordClip,
which requires 60, 64, 67 on channel 0, is not matched while only 60 and 64
are held, is matched once 67 is added, and is no longer matched after 64 is
released. -/
theorem trigger_matching_spec :
    (∀ (clips : List Clip) (ch : Nat) (notes : Finset Nat) (clip : Clip)
        (key : String × Int),
        (clip, key) ∈ find_active_clips clips (ch : Int) notes ↔
          clip ∈ clips ∧ key = (clip.file_path, (ch : Int)) ∧
          (clip.midi_channel = -1 ∨ clip.midi_channel = (ch : Int)) ∧
          clip.required_notes ≠ ∅ ∧ clip.required_notes ⊆ notes) ∧
    find_active_clips [chordClip] 0 {60, 64} = [] ∧
    find_active_clips [chordClip] 0 {60, 64, 67} =
      [(chordClip, (chordClip.file_path, 0))] ∧
    find_active_clips [chordClip] 0 {60, 67} = [] := by
  refine ⟨?_, by decide, by decide, by decide⟩
  intro clips ch notes clip key
  unfold find_active_clips
  rw [List.mem_filterMap]
  constructor
  · rintro ⟨a, ha, hfa⟩
    rw [clip_match_eq_some_iff] at hfa
    obtain ⟨rfl, hkey, hor, hne, hsub⟩ := hfa
    exact ⟨ha, hkey, hor, hne, hsub⟩
  · rintro ⟨hmem, hkey, hor, hne, hsub⟩
    refine ⟨clip, hmem, ?_⟩
    rw [clip_match_eq_some_iff]
    exact ⟨rfl, hkey, hor, hne, hsub⟩

end Pareidolia
